import Mathlib

/-!
Verification of the dual-number (forward-mode AD) arithmetic of `src/inc/gpu_deriv.hpp`
and of the interval / frame contracts stated in the design document of the mpr
renderer ("Massively Parallel Rendering of Complex Closed-Form Implicit Surfaces").
CUDA floats are modelled as real numbers.
-/

namespace Mpr

/-- Modelled from the spec: one data-parallel lane of `Renderable::run` (whose body is not
among the given sources; `renderable.hpp` only declares it).  Per §5 each active cell is
written by exactly one lane, and the written value is a function of the lane and the frame
inputs alone.  `writeLane` applies one lane's writes to the image. -/
def writeLane {Lane Pix Val : Type} (owns : Lane → Pix → Bool) (f : Lane → Pix → Val)
    (img : Pix → Val) (l : Lane) : Pix → Val :=
  fun p => if owns l p then f l p else img p

/-- Modelled from the spec: a frame of `Renderable::run` executes its lanes in some schedule
order, each lane writing the image cells it owns. -/
def runFrame {Lane Pix Val : Type} (owns : Lane → Pix → Bool) (f : Lane → Pix → Val)
    (sched : List Lane) (img : Pix → Val) : Pix → Val :=
  sched.foldl (writeLane owns f) img

noncomputable section

/-- Models the CUDA `float4` used by `gpu_deriv.hpp`: four components x, y, z, w. -/
structure Float4 where
  x : ℝ
  y : ℝ
  z : ℝ
  w : ℝ

/-- Models CUDA `make_float4`. -/
def make_float4 (x y z w : ℝ) : Float4 := ⟨x, y, z, w⟩

/-- `Deriv` from `gpu_deriv.hpp`: a dual number (value, ∂x, ∂y, ∂z) stored in a `float4`
as `(dx, dy, dz, value)`. -/
structure Deriv where
  v : Float4

namespace Deriv

/-- The default constructor `Deriv()`. -/
def zero : Deriv := ⟨make_float4 0 0 0 0⟩

/-- The single-float constructor `Deriv(float f)`. -/
def ofFloat (f : ℝ) : Deriv := ⟨make_float4 0 0 0 f⟩

/-- The four-argument constructor `Deriv(float v, float dx, float dy, float dz)`. -/
def mk4 (v dx dy dz : ℝ) : Deriv := ⟨make_float4 dx dy dz v⟩

/-- Accessor `value()`: returns `v.w`. -/
def value (a : Deriv) : ℝ := a.v.w

/-- Accessor `dx()`: returns `v.x`. -/
def dx (a : Deriv) : ℝ := a.v.x

/-- Accessor `dy()`: returns `v.y`. -/
def dy (a : Deriv) : ℝ := a.v.y

/-- Accessor `dz()`: returns `v.z`. -/
def dz (a : Deriv) : ℝ := a.v.z

/-- Unary `operator-(const Deriv&)`. -/
def neg (a : Deriv) : Deriv := mk4 (-a.value) (-a.dx) (-a.dy) (-a.dz)

/-- `operator+(const Deriv&, const Deriv&)`. -/
def add (a b : Deriv) : Deriv :=
  mk4 (a.value + b.value) (a.dx + b.dx) (a.dy + b.dy) (a.dz + b.dz)

/-- `operator+(const Deriv&, const float&)`. -/
def addF (a : Deriv) (b : ℝ) : Deriv := mk4 (a.value + b) a.dx a.dy a.dz

/-- `operator+(const float&, const Deriv&)`: returns `a + b`. -/
def addFl (b : ℝ) (a : Deriv) : Deriv := addF a b

/-- `operator*(const Deriv&, const Deriv&)`. -/
def mul (a b : Deriv) : Deriv :=
  mk4 (a.value * b.value)
    (a.dx * b.value + b.dx * a.value)
    (a.dy * b.value + b.dy * a.value)
    (a.dz * b.value + b.dz * a.value)

/-- `operator*(const Deriv&, const float&)`. -/
def mulF (a : Deriv) (b : ℝ) : Deriv :=
  mk4 (a.value * b) (a.dx * b) (a.dy * b) (a.dz * b)

/-- `operator*(const float&, const Deriv&)`: returns `b * a`. -/
def mulFl (a : ℝ) (b : Deriv) : Deriv := mulF b a

/-- `operator/(const Deriv&, const Deriv&)`, with `d = powf(b.value(), 2)`. -/
def div (a b : Deriv) : Deriv :=
  mk4 (a.value / b.value)
    ((b.value * a.dx - a.value * b.dx) / b.value ^ 2)
    ((b.value * a.dy - a.value * b.dy) / b.value ^ 2)
    ((b.value * a.dz - a.value * b.dz) / b.value ^ 2)

/-- `operator/(const Deriv&, const float&)`. -/
def divF (a : Deriv) (b : ℝ) : Deriv :=
  mk4 (a.value / b) (a.dx / b) (a.dy / b) (a.dz / b)

/-- `operator/(const float&, const Deriv&)`, with `d = powf(b.value(), 2)`. -/
def divFl (a : ℝ) (b : Deriv) : Deriv :=
  mk4 (a / b.value)
    (-a * b.dx / b.value ^ 2)
    (-a * b.dy / b.value ^ 2)
    (-a * b.dz / b.value ^ 2)

/-- `min(const Deriv&, const Deriv&)`: `(a.value() < b.value()) ? a : b`. -/
def min (a b : Deriv) : Deriv := if a.value < b.value then a else b

/-- `min(const Deriv&, const float&)`: `(a.value() < b) ? a : Deriv(b)`. -/
def minF (a : Deriv) (b : ℝ) : Deriv := if a.value < b then a else ofFloat b

/-- `min(const float&, const Deriv&)`: returns `min(b, a)`. -/
def minFl (a : ℝ) (b : Deriv) : Deriv := minF b a

/-- `max(const Deriv&, const Deriv&)`: `(a.value() >= b.value()) ? a : b`. -/
def max (a b : Deriv) : Deriv := if a.value ≥ b.value then a else b

/-- `max(const Deriv&, const float&)`: `(a.value() >= b) ? a : Deriv(b)`. -/
def maxF (a : Deriv) (b : ℝ) : Deriv := if a.value ≥ b then a else ofFloat b

/-- `max(const float&, const Deriv&)`: returns `max(b, a)`. -/
def maxFl (a : ℝ) (b : Deriv) : Deriv := maxF b a

/-- `square(const Deriv&)`. -/
def square (a : Deriv) : Deriv :=
  mk4 (a.value * a.value)
    (a.dx * a.value * 2)
    (a.dy * a.value * 2)
    (a.dz * a.value * 2)

/-- `abs(const Deriv&)`: `if (a.value() < 0) return -a; else return a;`. -/
def abs (a : Deriv) : Deriv := if a.value < 0 then neg a else a

/-- `operator-(const Deriv&, const Deriv&)`. -/
def sub (a b : Deriv) : Deriv :=
  mk4 (a.value - b.value) (a.dx - b.dx) (a.dy - b.dy) (a.dz - b.dz)

/-- `operator-(const Deriv&, const float&)`. -/
def subF (a : Deriv) (b : ℝ) : Deriv := mk4 (a.value - b) a.dx a.dy a.dz

/-- `operator-(const float&, const Deriv&)`. -/
def subFl (a : ℝ) (b : Deriv) : Deriv :=
  mk4 (a - b.value) (-b.dx) (-b.dy) (-b.dz)

/-- `sqrt(const Deriv&)`, with `d = 2 * sqrtf(a.value())`. -/
def sqrt (a : Deriv) : Deriv :=
  mk4 (Real.sqrt a.value)
    (a.dx / (2 * Real.sqrt a.value))
    (a.dy / (2 * Real.sqrt a.value))
    (a.dz / (2 * Real.sqrt a.value))

/-- `atan(const Deriv&)`, with `d = a.value() * a.value() + 1`. -/
def atan (a : Deriv) : Deriv :=
  mk4 (Real.arctan a.value)
    (a.dx / (a.value * a.value + 1))
    (a.dy / (a.value * a.value + 1))
    (a.dz / (a.value * a.value + 1))

/-- `acos(const Deriv&)`, with `d = -sqrtf(1 - a.value() * a.value())`. -/
def acos (a : Deriv) : Deriv :=
  mk4 (Real.arccos a.value)
    (a.dx / (-Real.sqrt (1 - a.value * a.value)))
    (a.dy / (-Real.sqrt (1 - a.value * a.value)))
    (a.dz / (-Real.sqrt (1 - a.value * a.value)))

/-- `asin(const Deriv&)`, with `d = sqrtf(1 - a.value() * a.value())`. -/
def asin (a : Deriv) : Deriv :=
  mk4 (Real.arcsin a.value)
    (a.dx / Real.sqrt (1 - a.value * a.value))
    (a.dy / Real.sqrt (1 - a.value * a.value))
    (a.dz / Real.sqrt (1 - a.value * a.value))

/-- `exp(const Deriv&)`, with `v = expf(a.value())`. -/
def exp (a : Deriv) : Deriv :=
  mk4 (Real.exp a.value)
    (Real.exp a.value * a.dx)
    (Real.exp a.value * a.dy)
    (Real.exp a.value * a.dz)

/-- `cos(const Deriv&)`, with `s = -sinf(a.value())`. -/
def cos (a : Deriv) : Deriv :=
  mk4 (Real.cos a.value)
    (-Real.sin a.value * a.dx)
    (-Real.sin a.value * a.dy)
    (-Real.sin a.value * a.dz)

/-- `sin(const Deriv&)`, with `c = cosf(a.value())`. -/
def sin (a : Deriv) : Deriv :=
  mk4 (Real.sin a.value)
    (Real.cos a.value * a.dx)
    (Real.cos a.value * a.dy)
    (Real.cos a.value * a.dz)

/-- `log(const Deriv&)`, with `v = a.value()`. -/
def log (a : Deriv) : Deriv :=
  mk4 (Real.log a.value)
    (a.dx / a.value)
    (a.dy / a.value)
    (a.dz / a.value)

end Deriv

/-- Modelled from the spec: `gpu_interval.hpp` is not among the given sources.  An Interval
is the `[lower, upper]` bound of §3; the `unbounded` flag represents the full-domain
widening of §4.1 ("Division/reciprocal near zero widens to the full domain"). -/
structure Interval where
  lower : ℝ
  upper : ℝ
  unbounded : Bool

/-- Modelled from the spec: interval negation. -/
def Interval.neg (a : Interval) : Interval := ⟨-a.upper, -a.lower, a.unbounded⟩

/-- Modelled from the spec: interval addition. -/
def Interval.add (a b : Interval) : Interval :=
  ⟨a.lower + b.lower, a.upper + b.upper, a.unbounded || b.unbounded⟩

/-- Modelled from the spec: interval subtraction. -/
def Interval.sub (a b : Interval) : Interval :=
  ⟨a.lower - b.upper, a.upper - b.lower, a.unbounded || b.unbounded⟩

/-- Modelled from the spec: interval multiplication, bounding by the four corner products. -/
def Interval.mul (a b : Interval) : Interval :=
  ⟨Min.min (Min.min (a.lower * b.lower) (a.lower * b.upper))
     (Min.min (a.upper * b.lower) (a.upper * b.upper)),
   Max.max (Max.max (a.lower * b.lower) (a.lower * b.upper))
     (Max.max (a.upper * b.lower) (a.upper * b.upper)),
   a.unbounded || b.unbounded⟩

/-- Modelled from the spec: interval reciprocal; near zero it widens to the full domain
(§4.1) rather than producing an unsound bound. -/
def Interval.recip (b : Interval) : Interval :=
  if b.lower ≤ 0 ∧ 0 ≤ b.upper then ⟨0, 0, true⟩
  else ⟨1 / b.upper, 1 / b.lower, b.unbounded⟩

/-- Modelled from the spec: interval division as multiplication by the reciprocal. -/
def Interval.div (a b : Interval) : Interval := a.mul b.recip

/-- Modelled from the spec (§4.1): interval `min` is the pointwise bound
`[min(a.lo,b.lo), min(a.hi,b.hi)]`. -/
def Interval.min (a b : Interval) : Interval :=
  ⟨Min.min a.lower b.lower, Min.min a.upper b.upper, a.unbounded || b.unbounded⟩

/-- Modelled from the spec (§4.1): interval `max` is the pointwise bound
`[max(a.lo,b.lo), max(a.hi,b.hi)]`. -/
def Interval.max (a b : Interval) : Interval :=
  ⟨Max.max a.lower b.lower, Max.max a.upper b.upper, a.unbounded || b.unbounded⟩

/-- Modelled from the spec: interval absolute value. -/
def Interval.abs (a : Interval) : Interval :=
  ⟨Max.max 0 (Max.max a.lower (-a.upper)), Max.max a.upper (-a.lower), a.unbounded⟩

/-- Modelled from the spec: interval square, via the absolute-value bound. -/
def Interval.square (a : Interval) : Interval :=
  ⟨a.abs.lower * a.abs.lower, a.abs.upper * a.abs.upper, a.unbounded⟩

/-- Modelled from the spec: interval square root (monotone). -/
def Interval.sqrt (a : Interval) : Interval :=
  ⟨Real.sqrt a.lower, Real.sqrt a.upper, a.unbounded⟩

end

/-- Accessor reduction: `value` of the four-argument constructor. -/
theorem Deriv.value_mk4 (w p q r : ℝ) : (Deriv.mk4 w p q r).value = w := rfl

/-- Accessor reduction: `dx` of the four-argument constructor. -/
theorem Deriv.dx_mk4 (w p q r : ℝ) : (Deriv.mk4 w p q r).dx = p := rfl

/-- Accessor reduction: `dy` of the four-argument constructor. -/
theorem Deriv.dy_mk4 (w p q r : ℝ) : (Deriv.mk4 w p q r).dy = q := rfl

/-- Accessor reduction: `dz` of the four-argument constructor. -/
theorem Deriv.dz_mk4 (w p q r : ℝ) : (Deriv.mk4 w p q r).dz = r := rfl

/-- Accessor reduction: `value` of the single-float constructor. -/
theorem Deriv.value_ofFloat (f : ℝ) : (Deriv.ofFloat f).value = f := rfl

/-- Accessor reduction: `dx` of the single-float constructor. -/
theorem Deriv.dx_ofFloat (f : ℝ) : (Deriv.ofFloat f).dx = 0 := rfl

/-- Accessor reduction: `dy` of the single-float constructor. -/
theorem Deriv.dy_ofFloat (f : ℝ) : (Deriv.ofFloat f).dy = 0 := rfl

/-- Accessor reduction: `dz` of the single-float constructor. -/
theorem Deriv.dz_ofFloat (f : ℝ) : (Deriv.ofFloat f).dz = 0 := rfl

/-- Two duals with equal value and equal partial derivatives are equal. -/
theorem Deriv.eq_of_parts {a b : Deriv} (hv : a.value = b.value) (hx : a.dx = b.dx)
    (hy : a.dy = b.dy) (hz : a.dz = b.dz) : a = b := by
  obtain ⟨⟨ax, ay, az, aw⟩⟩ := a
  obtain ⟨⟨bx, bby, bz, bw⟩⟩ := b
  simp only [Deriv.value, Deriv.dx, Deriv.dy, Deriv.dz] at hv hx hy hz
  subst hv hx hy hz
  rfl

/-- C6: a Deriv built by the single-float constructor has all three partial derivatives
zero, the default-constructed Deriv is all zeros, and the four-argument constructor
round-trips through the value/dx/dy/dz accessors, so constants contribute zero derivative
and an axis variable seeded with a unit derivative keeps it along its own axis. -/
theorem C6_constructors (f w p q r : ℝ) :
    (Deriv.ofFloat f).value = f ∧ (Deriv.ofFloat f).dx = 0 ∧
      (Deriv.ofFloat f).dy = 0 ∧ (Deriv.ofFloat f).dz = 0 ∧
      Deriv.zero.value = 0 ∧ Deriv.zero.dx = 0 ∧ Deriv.zero.dy = 0 ∧ Deriv.zero.dz = 0 ∧
      (Deriv.mk4 w p q r).value = w ∧ (Deriv.mk4 w p q r).dx = p ∧
      (Deriv.mk4 w p q r).dy = q ∧ (Deriv.mk4 w p q r).dz = r :=
  ⟨rfl, rfl, rfl, rfl, rfl, rfl, rfl, rfl, rfl, rfl, rfl, rfl⟩

/-- C3: `min`/`max` on duals return one of the two operands whole (all four components from
the single winning operand, no blending), the one whose value field wins the scalar
comparison. -/
theorem C3_minmax_select (a b : Deriv) :
    (Deriv.min a b = a ∨ Deriv.min a b = b) ∧
    (Deriv.min a b).value = Min.min a.value b.value ∧
    (Deriv.max a b = a ∨ Deriv.max a b = b) ∧
    (Deriv.max a b).value = Max.max a.value b.value := by
  refine ⟨?_, ?_, ?_, ?_⟩
  · unfold Deriv.min
    by_cases h : a.value < b.value
    · rw [if_pos h]; exact Or.inl rfl
    · rw [if_neg h]; exact Or.inr rfl
  · unfold Deriv.min
    by_cases h : a.value < b.value
    · rw [if_pos h]; exact (min_eq_left h.le).symm
    · rw [if_neg h]; exact (min_eq_right (not_lt.mp h)).symm
  · unfold Deriv.max
    by_cases h : a.value ≥ b.value
    · rw [if_pos h]; exact Or.inl rfl
    · rw [if_neg h]; exact Or.inr rfl
  · unfold Deriv.max
    by_cases h : a.value ≥ b.value
    · rw [if_pos h]; exact (max_eq_left h).symm
    · rw [if_neg h]; exact (max_eq_right (not_le.mp h).le).symm

/-- C4: `abs` returns |value| with the operand's own partial derivatives when the value is
non-negative (the a-branch is taken at zero) and their negation when the value is
negative; no further case exists. -/
theorem C4_abs_select (a : Deriv) :
    (Deriv.abs a).value = |a.value| ∧
    (0 ≤ a.value → Deriv.abs a = a) ∧
    (a.value < 0 → Deriv.abs a = Deriv.neg a) := by
  unfold Deriv.abs
  by_cases h : a.value < 0
  · rw [if_pos h]
    exact ⟨(abs_of_neg h).symm, fun h0 => absurd h (not_lt.mpr h0), fun _ => rfl⟩
  · rw [if_neg h]
    exact ⟨(abs_of_nonneg (not_lt.mp h)).symm, fun _ => rfl, fun hlt => absurd hlt h⟩

/-- Witness for C4 at values 0 (a-branch) and -2 (negated branch). -/
theorem C4_abs_select_witness :
    Deriv.abs (Deriv.mk4 0 5 6 7) = Deriv.mk4 0 5 6 7 ∧
    Deriv.abs (Deriv.mk4 (-2) 1 2 3) = Deriv.neg (Deriv.mk4 (-2) 1 2 3) :=
  ⟨(C4_abs_select (Deriv.mk4 0 5 6 7)).2.1 (by norm_num [Deriv.value_mk4]),
   (C4_abs_select (Deriv.mk4 (-2) 1 2 3)).2.2 (by norm_num [Deriv.value_mk4])⟩

/-- C8: at a value tie, `min` returns b and `max` returns a, so with operands that differ
(e.g. in a derivative field) the two selections never coincide. -/
theorem C8_tie_breaking (a b : Deriv) (h : a.value = b.value) :
    Deriv.min a b = b ∧ Deriv.max a b = a ∧ (a ≠ b → Deriv.min a b ≠ Deriv.max a b) := by
  have hmin : Deriv.min a b = b := by
    unfold Deriv.min
    rw [if_neg (by rw [h]; exact lt_irrefl _)]
  have hmax : Deriv.max a b = a := by
    unfold Deriv.max
    rw [if_pos h.ge]
  exact ⟨hmin, hmax, fun hne => by rw [hmin, hmax]; exact fun hba => hne hba.symm⟩

/-- Witness for C8 at a tie of value 1 with distinct derivative fields. -/
theorem C8_tie_breaking_witness :
    Deriv.min (Deriv.mk4 1 1 0 0) (Deriv.mk4 1 0 0 0) = Deriv.mk4 1 0 0 0 ∧
    Deriv.max (Deriv.mk4 1 1 0 0) (Deriv.mk4 1 0 0 0) = Deriv.mk4 1 1 0 0 ∧
    Deriv.min (Deriv.mk4 1 1 0 0) (Deriv.mk4 1 0 0 0) ≠
      Deriv.max (Deriv.mk4 1 1 0 0) (Deriv.mk4 1 0 0 0) := by
  have h := C8_tie_breaking (Deriv.mk4 1 1 0 0) (Deriv.mk4 1 0 0 0) rfl
  refine ⟨h.1, h.2.1, h.2.2 ?_⟩
  intro heq
  have h2 := congrArg Deriv.dx heq
  norm_num [Deriv.dx_mk4] at h2

/-- C1: the dual binary operators follow the product and quotient rules, and the unary
transcendentals follow the chain rule: each input partial derivative is multiplied by the
analytic derivative of the primitive at the input value (for sqrt away from its
non-differentiable point 0). -/
theorem C1_dual_calculus (a b : Deriv) :
    ((Deriv.mul a b).value = a.value * b.value ∧
      (Deriv.mul a b).dx = a.dx * b.value + b.dx * a.value ∧
      (Deriv.mul a b).dy = a.dy * b.value + b.dy * a.value ∧
      (Deriv.mul a b).dz = a.dz * b.value + b.dz * a.value) ∧
    ((Deriv.div a b).value = a.value / b.value ∧
      (Deriv.div a b).dx = (b.value * a.dx - a.value * b.dx) / b.value ^ 2 ∧
      (Deriv.div a b).dy = (b.value * a.dy - a.value * b.dy) / b.value ^ 2 ∧
      (Deriv.div a b).dz = (b.value * a.dz - a.value * b.dz) / b.value ^ 2) ∧
    (a.value ≠ 0 →
      (Deriv.sqrt a).dx = deriv Real.sqrt a.value * a.dx ∧
      (Deriv.sqrt a).dy = deriv Real.sqrt a.value * a.dy ∧
      (Deriv.sqrt a).dz = deriv Real.sqrt a.value * a.dz) ∧
    ((Deriv.sin a).dx = deriv Real.sin a.value * a.dx ∧
      (Deriv.sin a).dy = deriv Real.sin a.value * a.dy ∧
      (Deriv.sin a).dz = deriv Real.sin a.value * a.dz) ∧
    ((Deriv.cos a).dx = deriv Real.cos a.value * a.dx ∧
      (Deriv.cos a).dy = deriv Real.cos a.value * a.dy ∧
      (Deriv.cos a).dz = deriv Real.cos a.value * a.dz) ∧
    ((Deriv.exp a).dx = deriv Real.exp a.value * a.dx ∧
      (Deriv.exp a).dy = deriv Real.exp a.value * a.dy ∧
      (Deriv.exp a).dz = deriv Real.exp a.value * a.dz) ∧
    ((Deriv.log a).dx = deriv Real.log a.value * a.dx ∧
      (Deriv.log a).dy = deriv Real.log a.value * a.dy ∧
      (Deriv.log a).dz = deriv Real.log a.value * a.dz) ∧
    ((Deriv.atan a).dx = deriv Real.arctan a.value * a.dx ∧
      (Deriv.atan a).dy = deriv Real.arctan a.value * a.dy ∧
      (Deriv.atan a).dz = deriv Real.arctan a.value * a.dz) ∧
    ((Deriv.asin a).dx = deriv Real.arcsin a.value * a.dx ∧
      (Deriv.asin a).dy = deriv Real.arcsin a.value * a.dy ∧
      (Deriv.asin a).dz = deriv Real.arcsin a.value * a.dz) ∧
    ((Deriv.acos a).dx = deriv Real.arccos a.value * a.dx ∧
      (Deriv.acos a).dy = deriv Real.arccos a.value * a.dy ∧
      (Deriv.acos a).dz = deriv Real.arccos a.value * a.dz) := by
  have hsq : a.value * a.value = a.value ^ 2 := by ring
  refine ⟨⟨rfl, rfl, rfl, rfl⟩, ⟨rfl, rfl, rfl, rfl⟩, ?_, ?_, ?_, ?_, ?_, ?_, ?_, ?_⟩
  · intro h
    have hd : deriv Real.sqrt a.value = 1 / (2 * Real.sqrt a.value) :=
      (Real.hasDerivAt_sqrt h).deriv
    refine ⟨?_, ?_, ?_⟩ <;>
      simp only [Deriv.sqrt, Deriv.dx_mk4, Deriv.dy_mk4, Deriv.dz_mk4, hd] <;> ring
  · refine ⟨?_, ?_, ?_⟩ <;>
      simp only [Deriv.sin, Deriv.dx_mk4, Deriv.dy_mk4, Deriv.dz_mk4, Real.deriv_sin]
  · refine ⟨?_, ?_, ?_⟩ <;>
      simp only [Deriv.cos, Deriv.dx_mk4, Deriv.dy_mk4, Deriv.dz_mk4, Real.deriv_cos]
  · refine ⟨?_, ?_, ?_⟩ <;>
      simp only [Deriv.exp, Deriv.dx_mk4, Deriv.dy_mk4, Deriv.dz_mk4, Real.deriv_exp]
  · refine ⟨?_, ?_, ?_⟩ <;>
      simp only [Deriv.log, Deriv.dx_mk4, Deriv.dy_mk4, Deriv.dz_mk4, Real.deriv_log] <;>
      ring
  · refine ⟨?_, ?_, ?_⟩ <;>
      simp only [Deriv.atan, Deriv.dx_mk4, Deriv.dy_mk4, Deriv.dz_mk4, Real.deriv_arctan,
        hsq] <;>
      ring
  · refine ⟨?_, ?_, ?_⟩ <;>
      simp only [Deriv.asin, Deriv.dx_mk4, Deriv.dy_mk4, Deriv.dz_mk4, Real.deriv_arcsin,
        hsq] <;>
      ring
  · refine ⟨?_, ?_, ?_⟩ <;>
      simp only [Deriv.acos, Deriv.dx_mk4, Deriv.dy_mk4, Deriv.dz_mk4, Real.deriv_arccos,
        hsq] <;>
      ring

/-- Witness for C1: the sqrt chain rule applied at a dual with value 4. -/
theorem C1_dual_calculus_witness :
    (Deriv.sqrt (Deriv.mk4 4 1 2 3)).dx
      = deriv Real.sqrt (Deriv.mk4 4 1 2 3).value * (Deriv.mk4 4 1 2 3).dx :=
  ((C1_dual_calculus (Deriv.mk4 4 1 2 3) Deriv.zero).2.2.1
    (by norm_num [Deriv.value_mk4])).1

/-- C5: every dual operator takes no error branch at singular inputs: division by a dual
with value zero, log of a non-positive value, sqrt of a negative value, and asin/acos of a
value outside [-1, 1] all return the Deriv built by the same closed-form formulas (real
model of the float code; the resulting IEEE NaN/Inf component values themselves have no
real counterpart). -/
theorem C5_total_at_singularities (a b : Deriv) :
    (b.value = 0 →
      Deriv.div a b = Deriv.mk4 (a.value / b.value)
        ((b.value * a.dx - a.value * b.dx) / b.value ^ 2)
        ((b.value * a.dy - a.value * b.dy) / b.value ^ 2)
        ((b.value * a.dz - a.value * b.dz) / b.value ^ 2)) ∧
    (a.value ≤ 0 →
      Deriv.log a = Deriv.mk4 (Real.log a.value) (a.dx / a.value) (a.dy / a.value)
        (a.dz / a.value)) ∧
    (a.value < 0 →
      Deriv.sqrt a = Deriv.mk4 (Real.sqrt a.value) (a.dx / (2 * Real.sqrt a.value))
        (a.dy / (2 * Real.sqrt a.value)) (a.dz / (2 * Real.sqrt a.value))) ∧
    (1 < |a.value| →
      Deriv.asin a = Deriv.mk4 (Real.arcsin a.value)
          (a.dx / Real.sqrt (1 - a.value * a.value))
          (a.dy / Real.sqrt (1 - a.value * a.value))
          (a.dz / Real.sqrt (1 - a.value * a.value)) ∧
        Deriv.acos a = Deriv.mk4 (Real.arccos a.value)
          (a.dx / (-Real.sqrt (1 - a.value * a.value)))
          (a.dy / (-Real.sqrt (1 - a.value * a.value)))
          (a.dz / (-Real.sqrt (1 - a.value * a.value)))) :=
  ⟨fun _ => rfl, fun _ => rfl, fun _ => rfl, fun _ => ⟨rfl, rfl⟩⟩

/-- Witness for C5: a zero-value divisor, and log/sqrt/asin/acos at value -2. -/
theorem C5_total_at_singularities_witness :
    Deriv.div (Deriv.mk4 3 1 1 1) (Deriv.ofFloat 0)
      = Deriv.mk4 ((3 : ℝ) / 0) ((0 * 1 - 3 * 0) / 0 ^ 2) ((0 * 1 - 3 * 0) / 0 ^ 2)
          ((0 * 1 - 3 * 0) / 0 ^ 2) ∧
    Deriv.log (Deriv.mk4 (-2) 1 1 1)
      = Deriv.mk4 (Real.log (-2)) (1 / (-2)) (1 / (-2)) (1 / (-2)) ∧
    Deriv.sqrt (Deriv.mk4 (-2) 1 1 1)
      = Deriv.mk4 (Real.sqrt (-2)) (1 / (2 * Real.sqrt (-2))) (1 / (2 * Real.sqrt (-2)))
          (1 / (2 * Real.sqrt (-2))) ∧
    (Deriv.asin (Deriv.mk4 (-2) 1 1 1)
        = Deriv.mk4 (Real.arcsin (-2)) (1 / Real.sqrt (1 - (-2) * (-2)))
            (1 / Real.sqrt (1 - (-2) * (-2))) (1 / Real.sqrt (1 - (-2) * (-2))) ∧
      Deriv.acos (Deriv.mk4 (-2) 1 1 1)
        = Deriv.mk4 (Real.arccos (-2)) (1 / (-Real.sqrt (1 - (-2) * (-2))))
            (1 / (-Real.sqrt (1 - (-2) * (-2)))) (1 / (-Real.sqrt (1 - (-2) * (-2))))) :=
  ⟨(C5_total_at_singularities (Deriv.mk4 3 1 1 1) (Deriv.ofFloat 0)).1 rfl,
   (C5_total_at_singularities (Deriv.mk4 (-2) 1 1 1) Deriv.zero).2.1
     (by norm_num [Deriv.value_mk4]),
   (C5_total_at_singularities (Deriv.mk4 (-2) 1 1 1) Deriv.zero).2.2.1
     (by norm_num [Deriv.value_mk4]),
   (C5_total_at_singularities (Deriv.mk4 (-2) 1 1 1) Deriv.zero).2.2.2
     (by norm_num [Deriv.value_mk4])⟩

/-- C10 fails as stated: the float-first `min` mirror commutes its arguments, so at a value
tie it returns the promoted float constant, while the Deriv-Deriv `min` applied to the
promoted float (in the written order) returns the dual operand with its derivatives. -/
theorem C10_counterexample :
    Deriv.minFl 0 (Deriv.mk4 0 1 0 0) ≠ Deriv.min (Deriv.ofFloat 0) (Deriv.mk4 0 1 0 0) := by
  intro h
  have hL : Deriv.minFl 0 (Deriv.mk4 0 1 0 0) = Deriv.ofFloat 0 := by
    unfold Deriv.minFl Deriv.minF
    rw [if_neg (by norm_num [Deriv.value_mk4])]
  have hR : Deriv.min (Deriv.ofFloat 0) (Deriv.mk4 0 1 0 0) = Deriv.mk4 0 1 0 0 := by
    unfold Deriv.min
    rw [if_neg (by norm_num [Deriv.value_mk4, Deriv.value_ofFloat])]
  have h2 := congrArg Deriv.dx h
  rw [hL, hR] at h2
  norm_num [Deriv.dx_mk4, Deriv.dx_ofFloat] at h2

/-- C10 amended: the mixed +, -, * overloads and their mirrors agree with promoting the
float to a constant dual in its own operand position; the Deriv-first min/max overloads
likewise; the float-first min/max mirrors are implemented by commuting the call, so they
agree with the Deriv-Deriv operator applied with the Deriv operand first (which differs
from in-place promotion exactly at value ties). -/
theorem C10_mixed_promotion (a : Deriv) (b : ℝ) :
    Deriv.addF a b = Deriv.add a (Deriv.ofFloat b) ∧
    Deriv.addFl b a = Deriv.add (Deriv.ofFloat b) a ∧
    Deriv.subF a b = Deriv.sub a (Deriv.ofFloat b) ∧
    Deriv.subFl b a = Deriv.sub (Deriv.ofFloat b) a ∧
    Deriv.mulF a b = Deriv.mul a (Deriv.ofFloat b) ∧
    Deriv.mulFl b a = Deriv.mul (Deriv.ofFloat b) a ∧
    Deriv.minF a b = Deriv.min a (Deriv.ofFloat b) ∧
    Deriv.maxF a b = Deriv.max a (Deriv.ofFloat b) ∧
    Deriv.minFl b a = Deriv.min a (Deriv.ofFloat b) ∧
    Deriv.maxFl b a = Deriv.max a (Deriv.ofFloat b) := by
  refine ⟨?_, ?_, ?_, ?_, ?_, ?_, rfl, rfl, rfl, rfl⟩
  · refine Deriv.eq_of_parts ?_ ?_ ?_ ?_ <;>
      simp only [Deriv.addF, Deriv.add, Deriv.value_mk4, Deriv.dx_mk4, Deriv.dy_mk4,
        Deriv.dz_mk4, Deriv.value_ofFloat, Deriv.dx_ofFloat, Deriv.dy_ofFloat,
        Deriv.dz_ofFloat] <;>
      ring
  · refine Deriv.eq_of_parts ?_ ?_ ?_ ?_ <;>
      simp only [Deriv.addFl, Deriv.addF, Deriv.add, Deriv.value_mk4, Deriv.dx_mk4,
        Deriv.dy_mk4, Deriv.dz_mk4, Deriv.value_ofFloat, Deriv.dx_ofFloat, Deriv.dy_ofFloat,
        Deriv.dz_ofFloat] <;>
      ring
  · refine Deriv.eq_of_parts ?_ ?_ ?_ ?_ <;>
      simp only [Deriv.subF, Deriv.sub, Deriv.value_mk4, Deriv.dx_mk4, Deriv.dy_mk4,
        Deriv.dz_mk4, Deriv.value_ofFloat, Deriv.dx_ofFloat, Deriv.dy_ofFloat,
        Deriv.dz_ofFloat] <;>
      ring
  · refine Deriv.eq_of_parts ?_ ?_ ?_ ?_ <;>
      simp only [Deriv.subFl, Deriv.sub, Deriv.value_mk4, Deriv.dx_mk4, Deriv.dy_mk4,
        Deriv.dz_mk4, Deriv.value_ofFloat, Deriv.dx_ofFloat, Deriv.dy_ofFloat,
        Deriv.dz_ofFloat] <;>
      ring
  · refine Deriv.eq_of_parts ?_ ?_ ?_ ?_ <;>
      simp only [Deriv.mulF, Deriv.mul, Deriv.value_mk4, Deriv.dx_mk4, Deriv.dy_mk4,
        Deriv.dz_mk4, Deriv.value_ofFloat, Deriv.dx_ofFloat, Deriv.dy_ofFloat,
        Deriv.dz_ofFloat] <;>
      ring
  · refine Deriv.eq_of_parts ?_ ?_ ?_ ?_ <;>
      simp only [Deriv.mulFl, Deriv.mulF, Deriv.mul, Deriv.value_mk4, Deriv.dx_mk4,
        Deriv.dy_mk4, Deriv.dz_mk4, Deriv.value_ofFloat, Deriv.dx_ofFloat, Deriv.dy_ofFloat,
        Deriv.dz_ofFloat] <;>
      ring

/-- C9: the specialised `square` primitive agrees exactly with self-multiplication, the
dedicated 2*d*v formula coinciding with the product rule d*v + d*v. -/
theorem C9_square_refines_mul (a : Deriv) : Deriv.square a = Deriv.mul a a := by
  refine Deriv.eq_of_parts ?_ ?_ ?_ ?_ <;>
    simp only [Deriv.square, Deriv.mul, Deriv.value_mk4, Deriv.dx_mk4, Deriv.dy_mk4,
      Deriv.dz_mk4] <;>
    ring

/-- A schedule none of whose lanes owns pixel p leaves p unchanged. -/
theorem runFrame_untouched {Lane Pix Val : Type} (owns : Lane → Pix → Bool)
    (f : Lane → Pix → Val) (sched : List Lane) (img : Pix → Val) (p : Pix)
    (h : ∀ l ∈ sched, owns l p = false) : runFrame owns f sched img p = img p := by
  induction sched generalizing img with
  | nil => rfl
  | cons a t ih =>
    have ha : owns a p = false := h a (List.mem_cons_self a t)
    have ht : ∀ l ∈ t, owns l p = false := fun l hl => h l (List.mem_cons_of_mem a hl)
    calc runFrame owns f (a :: t) img p
        = runFrame owns f t (writeLane owns f img a) p := rfl
      _ = writeLane owns f img a p := ih _ ht
      _ = img p := by simp [writeLane, ha]

/-- If lane l owns pixel p and is the only lane of the schedule owning p, the final image
at p holds l's value, wherever l sits in the schedule. -/
theorem runFrame_owner {Lane Pix Val : Type} (owns : Lane → Pix → Bool)
    (f : Lane → Pix → Val) (sched : List Lane) (img : Pix → Val) (p : Pix) (l : Lane)
    (hmem : l ∈ sched) (hl : owns l p = true)
    (huniq : ∀ l2 ∈ sched, owns l2 p = true → l2 = l) :
    runFrame owns f sched img p = f l p := by
  revert hmem huniq
  induction sched generalizing img with
  | nil =>
    intro hmem _
    exact absurd hmem (List.not_mem_nil l)
  | cons a t ih =>
    intro hmem huniq
    by_cases hc : ∀ l2 ∈ t, owns l2 p = false
    · have h1 : runFrame owns f (a :: t) img p = writeLane owns f img a p :=
        runFrame_untouched owns f t (writeLane owns f img a) p hc
      rcases List.mem_cons.mp hmem with h | h
      · subst h
        rw [h1]
        simp [writeLane, hl]
      · have h4 := hc l h
        rw [hl] at h4
        simp at h4
    · push_neg at hc
      obtain ⟨l2, hmem2, hne⟩ := hc
      have h2 : owns l2 p = true := by
        cases hq : owns l2 p
        · exact absurd hq hne
        · rfl
      have h3 : l2 = l := huniq l2 (List.mem_cons_of_mem a hmem2) h2
      subst h3
      exact ih (writeLane owns f img a) hmem2
        (fun l3 h5 h6 => huniq l3 (List.mem_cons_of_mem a h5) h6)

/-- C7: under §5's single-writer discipline (each image cell written by exactly one lane,
the written value a function of the frame inputs), the final image of a frame is
independent of the lane schedule, so running the same frame twice — in whatever order the
device happens to execute the lanes — produces a bit-identical image. -/
theorem C7_run_deterministic {Lane Pix Val : Type} (owns : Lane → Pix → Bool)
    (f : Lane → Pix → Val) (s₁ s₂ : List Lane) (img : Pix → Val)
    (huniq : ∀ l₁ l₂ p, owns l₁ p = true → owns l₂ p = true → l₁ = l₂)
    (hsame : ∀ l, l ∈ s₁ ↔ l ∈ s₂) :
    runFrame owns f s₁ img = runFrame owns f s₂ img := by
  funext p
  by_cases hp : ∀ l ∈ s₁, owns l p = false
  · have hp2 : ∀ l ∈ s₂, owns l p = false := fun l hl => hp l ((hsame l).mpr hl)
    rw [runFrame_untouched owns f s₁ img p hp, runFrame_untouched owns f s₂ img p hp2]
  · push_neg at hp
    obtain ⟨l, hmem, hne⟩ := hp
    have hl : owns l p = true := by
      cases hq : owns l p
      · exact absurd hq hne
      · rfl
    rw [runFrame_owner owns f s₁ img p l hmem hl (fun l2 _ h2 => huniq l2 l p h2 hl),
      runFrame_owner owns f s₂ img p l ((hsame l).mp hmem) hl
        (fun l2 _ h2 => huniq l2 l p h2 hl)]

/-- Witness for C7: two lanes across four pixels (even pixels owned by lane 0, odd by
lane 1), run under the two opposite schedule orders. -/
theorem C7_run_deterministic_witness :
    runFrame (fun (l : Fin 2) (p : Fin 4) => decide (p.val % 2 = l.val))
        (fun l p => l.val + p.val) [0, 1] (fun _ => 0)
      = runFrame (fun (l : Fin 2) (p : Fin 4) => decide (p.val % 2 = l.val))
        (fun l p => l.val + p.val) [1, 0] (fun _ => 0) :=
  C7_run_deterministic _ _ _ _ _ (by decide) (by decide)

end Mpr
